import Mathlib

/-!
Verification of `search_data.py` (webSearchEngine): a shallow embedding of
the content-acquisition pipeline — relevance scorer, robots gate, format
dispatch, text extractors, and the DuckDuckGo search loop — with theorems
settling the specification's claims about it.

External collaborators (the HTTP stack, pdfplumber, Tesseract,
BeautifulSoup, tldextract, the robots parser and the zero-shot
classification model) are passed in as oracle functions; the repository's
own control flow is translated line by line.  Python exceptions raised by
a collaborator are modelled by `Option`/`Except` results; machine text is
`String`, byte payloads a `List Nat`.
-/

namespace WebSearch

/-! ## Python string primitives

`re.sub(r"\s+", " ", t).strip()` and friends.  Python's `\s` on `str`
also matches some non-ASCII unicode whitespace; the model restricts to
the six ASCII whitespace characters, which is the fragment the
repository's data ever meets. -/

/-- Whitespace as Python's `\s` / `str.strip` see it (ASCII fragment). -/
def isPySpace (c : Char) : Bool :=
  c == ' ' || c == '\t' || c == '\n' || c == '\r' || c == '\x0b' || c == '\x0c'

/-- `re.sub(r"\s+", " ", ·)` on a character list: every maximal run of
whitespace becomes one `' '`.  The flag says whether the previous
character was part of a whitespace run already replaced. -/
def collapse : Bool → List Char → List Char
  | _, [] => []
  | prev, c :: cs =>
    if isPySpace c then
      if prev then collapse true cs else ' ' :: collapse true cs
    else c :: collapse false cs

/-- Remove the trailing whitespace run (the right half of `str.strip`). -/
def dropTrailingWs : List Char → List Char
  | [] => []
  | c :: cs =>
    let r := dropTrailingWs cs
    if r.isEmpty && isPySpace c then [] else c :: r

/-- `str.strip()` on a character list. -/
def pyStripChars (l : List Char) : List Char :=
  dropTrailingWs (l.dropWhile isPySpace)

/-- Python `str.strip()`. -/
def pyStrip (s : String) : String :=
  String.mk (pyStripChars s.data)

/-- `re.sub(r"\s+", " ", s).strip()` — the normalization every extractor
in `search_data.py` applies. -/
def pyNormalize (s : String) : String :=
  String.mk (pyStripChars (collapse false s.data))

/-- No two adjacent whitespace characters. -/
def noTwoWs : List Char → Bool
  | a :: b :: rest => (!(isPySpace a && isPySpace b)) && noTwoWs (b :: rest)
  | _ => true

/-- A string is fully whitespace-normalized: every whitespace character
is a plain space, no two are adjacent, and none sits at either end. -/
def isNormalized (s : String) : Bool :=
  s.data.all (fun c => !isPySpace c || c == ' ') &&
  noTwoWs s.data &&
  (match s.data.head? with | some c => !isPySpace c | none => true) &&
  (match s.data.getLast? with | some c => !isPySpace c | none => true)

/-- Python `s.split(" ")` on a character list: pieces between single-space
separators, empty pieces kept, `""` splitting to `[""]`. -/
def splitOnSpace : List Char → List (List Char)
  | [] => [[]]
  | c :: cs =>
    if c == ' ' then [] :: splitOnSpace cs
    else
      match splitOnSpace cs with
      | t :: ts => (c :: t) :: ts
      | [] => [[c]]

/-- Python `s.split(" ")`. -/
def pySplitSpace (s : String) : List String :=
  (splitOnSpace s.data).map String.mk

/-- `str.lower()` on one character (ASCII fragment: the checks below
only compare against ASCII letters). -/
def pyToLowerChar (c : Char) : Char :=
  if 65 ≤ c.toNat && c.toNat ≤ 90 then Char.ofNat (c.toNat + 32) else c

/-- Python `str.lower()`. -/
def pyLower (s : String) : String :=
  String.mk (s.data.map pyToLowerChar)

/-- Python `s.endswith(e)`. -/
def pyEndsWith (s e : String) : Bool :=
  e.data.isSuffixOf s.data

/-- Python `sub in s` (substring containment). -/
def pyContains (s sub : String) : Bool :=
  (List.range (s.data.length + 1)).any (fun i => sub.data.isPrefixOf (s.data.drop i))

/-- Python `"\n".join(l)`. -/
def joinNL (l : List String) : String :=
  String.intercalate "\n" l

/-! ## RelevanceScorer — `get_relate_domain_score` (lines 20-36)

The zero-shot model `classifier(text, labels)` is an oracle returning a
dict with parallel `labels` and `scores` lists; scores are rationals in
the model.  The returned pair is (result, oracle invoked); exceptions
(`raise ValueError(...)`, a failed `list.index`, an out-of-range
subscript) are `Except.error` with the Python message. -/

/-- The zero-shot classification oracle's output: `result["labels"]`
and `result["scores"]`. -/
structure ClassifierOutput where
  labels : List String
  scores : List ℚ
deriving DecidableEq

/-- Lines 34-36: `result["labels"].index(target_labels[0])` (a
`ValueError` if absent) and the subscript into `result["scores"]` (an
`IndexError` if out of range). -/
def scoreLookup (result : ClassifierOutput) (t0 : String) : Except String ℚ × Bool :=
  if result.labels.contains t0 then
    match result.scores.get? (result.labels.indexOf t0) with
    | some s => (Except.ok s, true)
    | none => (Except.error "IndexError: list index out of range", true)
  else (Except.error "ValueError: x not in list", true)

/-- `get_relate_domain_score(text, binary_labels)`: empty/whitespace
text scores `0.0` at once; otherwise the label string is split on a
space, fewer than two tokens raise, and the oracle's probability for
the first token is looked up.  Second component: was the oracle
invoked. -/
def get_relate_domain_score (classifier : String → List String → ClassifierOutput)
    (text binary_labels : String) : Except String ℚ × Bool :=
  if pyStrip text = "" then (Except.ok 0, false)
  else
    match pySplitSpace binary_labels with
    | t0 :: t1 :: _ => scoreLookup (classifier text [t0, t1]) t0
    | _ => (Except.error "target_labels must contain at least two elements.", false)

/-! ## CrawlPermissionGate — `can_crawl` (lines 45-67)

Oracles: whether `robotexclusionrulesparser` imported, `tldextract`'s
registered domain (`""` when undeterminable), the robots.txt GET
(`none` = timeout/network exception, otherwise status and body), and
the parsed policy's `is_allowed("*", url)` verdict on a body. -/

/-- `can_crawl(url)`. -/
def can_crawl (parserAvail : Bool) (regDomain : String → String)
    (fetchRobots : String → Option (Nat × String))
    (allows : String → String → Bool) (url : String) : Bool :=
  if !parserAvail then true
  else
    let domain := regDomain url
    if domain = "" then true
    else
      match fetchRobots ("http://" ++ domain ++ "/robots.txt") with
      | none => true
      | some (status, body) => if status = 200 then allows body url else true

/-! ## TextExtractors (lines 95-159) -/

/-- Raw byte payloads (`resp.content`, PDF/image bytes). -/
abbrev Bytes := List Nat

/-- An abstract rasterized page, as `pdf2image` hands them out. -/
abbrev Img := Nat

/-- `parse_pdf_with_pdfplumber(pdf_bytes)` (lines 95-112).  The oracle
is pdfplumber's per-page `extract_text()` (`none` for the whole
document = an exception while opening/iterating; a page's `none` =
`extract_text()` returned `None`).  Pages with falsy text are skipped,
the rest joined with `"\n"` and normalized. -/
def parse_pdf_with_pdfplumber (plumberPages : Bytes → Option (List (Option String)))
    (pdf_bytes : Bytes) : String :=
  match plumberPages pdf_bytes with
  | none => ""
  | some pages =>
    pyNormalize (joinNL (pages.filterMap
      (fun p => match p with
        | some t => if t = "" then none else some t
        | none => none)))

/-- `parse_pdf_with_ocr(pdf_bytes)` (lines 114-135).  `convert` is
`convert_from_bytes(..., dpi=300)` (`none` = conversion exception);
`ocrPage` is `pytesseract.image_to_string(img, lang="chi_tra")`
(`none` = a per-page OCR exception, skipped).  Each page's text is
normalized, empty pages dropped, and the pieces joined with `"\n"` —
the join itself is not re-normalized. -/
def parse_pdf_with_ocr (convert : Bytes → Option (List Img))
    (ocrPage : Img → Option String) (pdf_bytes : Bytes) : String :=
  match convert pdf_bytes with
  | none => ""
  | some images =>
    joinNL (images.filterMap
      (fun i => match ocrPage i with
        | none => none
        | some t => if pyNormalize t = "" then none else some (pyNormalize t)))

/-- `parse_image_with_ocr(image_bytes)` (lines 137-148): decode + OCR
oracle (`none` = exception), output normalized. -/
def parse_image_with_ocr (imgOcr : Bytes → Option String) (image_bytes : Bytes) : String :=
  match imgOcr image_bytes with
  | none => ""
  | some t => pyNormalize t

/-- `parse_html(html_text)` (lines 150-159): `soupText` is
BeautifulSoup's visible text with script/style/noscript decomposed and
`"\n"` separators; the result is normalized. -/
def parse_html (soupText : String → String) (html_text : String) : String :=
  pyNormalize (soupText html_text)

/-! ## FormatClassifier and ContentFetcher — `fetch_full_text_requests`
(lines 161-205)

The format dispatch is inlined in the source (lines 180-197); it is a
pure function of the lowercased `Content-Type` header and the url, and
is factored out here as `classify`. -/

inductive Format
  | PDF
  | IMAGE
  | HTML
  | UNKNOWN
deriving DecidableEq

/-- The raster-image extensions of the regex `\.(png|jpe?g|gif|bmp|tif)$`. -/
def imageSuffixes : List String :=
  [".png", ".jpg", ".jpeg", ".gif", ".bmp", ".tif"]

/-- `re.search(r"\.(png|jpe?g|gif|bmp|tif)$", u)`: without `re.MULTILINE`,
`$` matches at the end of the string or just before one final newline,
so the url may also carry a single trailing `'\n'` after the suffix. -/
def imageRegexMatch (u : String) : Bool :=
  imageSuffixes.any (fun e => pyEndsWith u e || pyEndsWith u (e ++ "\n"))

/-- The format dispatch of lines 180-197, on the raw header value and
url (the source lowercases both before testing). -/
def classify (contentType url : String) : Format :=
  let ct := pyLower contentType
  let u := pyLower url
  if pyContains ct "pdf" || pyEndsWith u ".pdf" then Format.PDF
  else if pyContains ct "image" || imageRegexMatch u then Format.IMAGE
  else if pyContains ct "html" then Format.HTML
  else Format.UNKNOWN

/-- Modelled from the spec's words (section 4.2, claim C2): PDF if the
content type contains "pdf" or the url ends in ".pdf"; else IMAGE if
the content type contains "image" or the url ends in one of the
raster-image suffixes; else HTML if the content type contains "html";
else UNKNOWN — all matching case-insensitive. -/
def classifySpec (contentType url : String) : Format :=
  let ct := pyLower contentType
  let u := pyLower url
  if pyContains ct "pdf" || pyEndsWith u ".pdf" then Format.PDF
  else if pyContains ct "image" || imageSuffixes.any (fun e => pyEndsWith u e) then Format.IMAGE
  else if pyContains ct "html" then Format.HTML
  else Format.UNKNOWN

/-- An HTTP response as `fetch_full_text_requests` reads it: status
code, the `Content-Type` header (`""` when absent), `resp.content`
and the decoded `resp.text`. -/
structure HttpResp where
  status : Nat
  contentType : String
  body : Bytes
  text : String

/-- `fetch_full_text_requests(url)` (lines 161-205).  `resp` is the
GET (`none` = a requests exception: connection error, timeout, …).
Second component: whether the PDF OCR fallback was invoked.  Every
failure path returns `""` rather than propagating. -/
def fetch_full_text_requests (resp : String → Option HttpResp)
    (plumberPages : Bytes → Option (List (Option String)))
    (convert : Bytes → Option (List Img)) (ocrPage : Img → Option String)
    (imgOcr : Bytes → Option String) (soupText : String → String)
    (url : String) : String × Bool :=
  match resp url with
  | none => ("", false)
  | some r =>
    if r.status ≠ 200 then ("", false)
    else
      match classify r.contentType url with
      | Format.PDF =>
        let text := parse_pdf_with_pdfplumber plumberPages r.body
        if pyStrip text = "" then (parse_pdf_with_ocr convert ocrPage r.body, true)
        else (text, false)
      | Format.IMAGE => (parse_image_with_ocr imgOcr r.body, false)
      | Format.HTML => (parse_html soupText r.text, false)
      | Format.UNKNOWN => ("", false)

/-! ## AcquisitionPipeline — `fetch_full_text` (207-218) and
`search_duckduckgo` (220-260)

`USE_SELENIUM` is statically `False`, so `fetch_full_text` is the gate
around the requests fetcher.  At the pipeline level the gate
(`can_crawl`) and the fetcher (`fetch_full_text_requests`) enter as
oracles on the url, and the DDGS search result is the given hit list;
the trace of network-visible steps (the search call, each per-hit
fetch) is returned alongside the result. -/

/-- `fetch_full_text(url)`: `""` when the gate denies, else the
requests fetcher's text. -/
def fetch_full_text (gate : String → Bool) (fetchReq : String → String)
    (url : String) : String :=
  if gate url then fetchReq url else ""

/-- One raw DDGS hit: `r["title"]`, `r["href"]`, `r["body"]`. -/
structure RawHit where
  title : String
  href : String
  body : String
deriving DecidableEq

/-- One emitted record of `search_duckduckgo` (lines 253-259). -/
structure ResultRecord where
  title : String
  link : String
  snippet : String
  full_text : String
  academic_score : ℚ
deriving DecidableEq

/-- Network-visible steps of a pipeline run, in order. -/
inductive Ev
  | search
  | fetch (url : String)
deriving DecidableEq

/-- The `for r in raw_results` loop of lines 240-259: fetch, skip empty
text, score (a raised `ValueError` aborts the run, losing the records
gathered so far), append in order. -/
def runHits (gate : String → Bool) (fetchReq : String → String)
    (classifier : String → List String → ClassifierOutput) (binary_labels : String) :
    List RawHit → Except String (List ResultRecord) × List Ev
  | [] => (Except.ok [], [])
  | h :: rest =>
    if fetch_full_text gate fetchReq h.href = "" then
      ((runHits gate fetchReq classifier binary_labels rest).1,
       Ev.fetch h.href :: (runHits gate fetchReq classifier binary_labels rest).2)
    else
      match get_relate_domain_score classifier
          (fetch_full_text gate fetchReq h.href) binary_labels with
      | (Except.error e, _) => (Except.error e, [Ev.fetch h.href])
      | (Except.ok q, _) =>
        match runHits gate fetchReq classifier binary_labels rest with
        | (Except.ok l, evs) =>
          (Except.ok ({ title := h.title, link := h.href, snippet := h.body,
                        full_text := fetch_full_text gate fetchReq h.href,
                        academic_score := q } :: l),
           Ev.fetch h.href :: evs)
        | (Except.error e, evs) => (Except.error e, Ev.fetch h.href :: evs)

/-- `search_duckduckgo(query, binary_labels, max_results)` (lines
220-260) with the DDGS text search modelled as the given `hits` list
(its network call is the leading `Ev.search`). -/
def search_duckduckgo (gate : String → Bool) (fetchReq : String → String)
    (classifier : String → List String → ClassifierOutput)
    (hits : List RawHit) (binary_labels : String) :
    Except String (List ResultRecord) × List Ev :=
  let r := runHits gate fetchReq classifier binary_labels hits
  (r.1, Ev.search :: r.2)

/-- A hit survives the loop's `if not full_text: continue` test. -/
def survives (gate : String → Bool) (fetchReq : String → String) (h : RawHit) : Bool :=
  fetch_full_text gate fetchReq h.href != ""

/-- The score a surviving hit's record carries. -/
def scoreOf (classifier : String → List String → ClassifierOutput)
    (binary_labels t : String) : ℚ :=
  match (get_relate_domain_score classifier t binary_labels).1 with
  | Except.ok q => q
  | Except.error _ => 0

/-- The record `search_duckduckgo` assembles for a surviving hit. -/
def mkRecord (gate : String → Bool) (fetchReq : String → String)
    (classifier : String → List String → ClassifierOutput) (binary_labels : String)
    (h : RawHit) : ResultRecord :=
  { title := h.title, link := h.href, snippet := h.body,
    full_text := fetch_full_text gate fetchReq h.href,
    academic_score := scoreOf classifier binary_labels (fetch_full_text gate fetchReq h.href) }

/-! ## Whitespace-normalization properties (claim C9) -/

lemma all_of_sublist {p : Char → Bool} {l' l : List Char} (h : List.Sublist l' l)
    (hall : l.all p = true) : l'.all p = true := by
  rw [List.all_eq_true] at hall ⊢
  exact fun x hx => hall x (h.subset hx)

lemma collapse_all_space : ∀ (b : Bool) (l : List Char),
    (collapse b l).all (fun c => !isPySpace c || c == ' ') = true := by
  intro b l
  induction l generalizing b with
  | nil => rfl
  | cons c cs ih =>
    cases hsp : isPySpace c with
    | false => simp [collapse, hsp, ih]
    | true =>
      cases b with
      | true => simpa [collapse, hsp] using ih true
      | false => simp [collapse, hsp, ih]

lemma collapse_true_head : ∀ (l : List Char) (c : Char),
    (collapse true l).head? = some c → isPySpace c = false := by
  intro l
  induction l with
  | nil => intro c h; simp [collapse] at h
  | cons a as ih =>
    intro c
    cases hsp : isPySpace a with
    | true => simpa [collapse, hsp] using ih c
    | false =>
      intro h
      simp only [collapse, hsp, Bool.false_eq_true, if_false, List.head?_cons,
        Option.some.injEq] at h
      rw [← h]; exact hsp

lemma noTwoWs_cons_eq (a : Char) (l : List Char) :
    noTwoWs (a :: l) =
      ((match l.head? with
        | some b => !(isPySpace a && isPySpace b)
        | none => true) && noTwoWs l) := by
  cases l <;> simp [noTwoWs]

lemma noTwoWs_collapse : ∀ (l : List Char) (b : Bool),
    noTwoWs (collapse b l) = true := by
  intro l
  induction l with
  | nil => intro b; rfl
  | cons c cs ih =>
    intro b
    cases hsp : isPySpace c with
    | false =>
      simp only [collapse, hsp, Bool.false_eq_true, if_false]
      rw [noTwoWs_cons_eq]
      rcases hh : (collapse false cs).head? with _ | d
      · simp [ih]
      · simp [hsp, ih]
    | true =>
      cases b with
      | true => simpa [collapse, hsp] using ih true
      | false =>
        simp only [collapse, hsp, if_true, Bool.false_eq_true, if_false]
        rw [noTwoWs_cons_eq]
        rcases hh : (collapse true cs).head? with _ | d
        · simp [ih]
        · simp [collapse_true_head cs d hh, ih]

lemma noTwoWs_dropWhile (p : Char → Bool) : ∀ (l : List Char),
    noTwoWs l = true → noTwoWs (l.dropWhile p) = true := by
  intro l
  induction l with
  | nil => intro h; exact h
  | cons c cs ih =>
    intro h
    rw [noTwoWs_cons_eq] at h
    cases hp : p c with
    | true =>
      simp only [List.dropWhile_cons, hp, if_true]
      rw [Bool.and_eq_true] at h
      exact ih h.2
    | false =>
      simpa [List.dropWhile_cons, hp, noTwoWs_cons_eq] using h

lemma head_dropWhile_pySpace : ∀ (l : List Char) (c : Char),
    (l.dropWhile isPySpace).head? = some c → isPySpace c = false := by
  intro l
  induction l with
  | nil => intro c h; simp at h
  | cons a as ih =>
    intro c
    cases hsp : isPySpace a with
    | true => simpa [List.dropWhile_cons, hsp] using ih c
    | false =>
      intro h
      simp only [List.dropWhile_cons, hsp, Bool.false_eq_true, if_false,
        List.head?_cons, Option.some.injEq] at h
      rw [← h]; exact hsp

lemma dropTrailingWs_head? : ∀ (l : List Char) (c : Char),
    (dropTrailingWs l).head? = some c → l.head? = some c := by
  intro l
  induction l with
  | nil => intro c h; simp [dropTrailingWs] at h
  | cons a as _ =>
    intro c
    simp only [dropTrailingWs]
    by_cases he : (dropTrailingWs as).isEmpty && isPySpace a
    · simp [he]
    · simp [he, List.head?_cons]

lemma all_dropTrailingWs (p : Char → Bool) : ∀ (l : List Char),
    l.all p = true → (dropTrailingWs l).all p = true := by
  intro l
  induction l with
  | nil => intro h; exact h
  | cons a as ih =>
    intro h
    rw [List.all_cons, Bool.and_eq_true] at h
    simp only [dropTrailingWs]
    by_cases he : ((dropTrailingWs as).isEmpty && isPySpace a) = true
    · rw [if_pos he]; rfl
    · rw [if_neg he, List.all_cons, Bool.and_eq_true]
      exact ⟨h.1, ih h.2⟩

lemma noTwoWs_dropTrailingWs : ∀ (l : List Char),
    noTwoWs l = true → noTwoWs (dropTrailingWs l) = true := by
  intro l
  induction l with
  | nil => intro h; exact h
  | cons a as ih =>
    intro h
    rw [noTwoWs_cons_eq, Bool.and_eq_true] at h
    simp only [dropTrailingWs]
    by_cases he : ((dropTrailingWs as).isEmpty && isPySpace a) = true
    · rw [if_pos he]; rfl
    · rw [if_neg he, noTwoWs_cons_eq]
      rcases hh : (dropTrailingWs as).head? with _ | d
      · simp [ih h.2]
      · have hd := dropTrailingWs_head? as d hh
        have h1 := h.1
        rw [hd] at h1
        have h2 : (!(isPySpace a && isPySpace d)) = true := h1
        simp only [hh, ih h.2, Bool.and_true]
        cases ha : isPySpace a with
        | false => rfl
        | true =>
          cases hdp : isPySpace d with
          | false => rfl
          | true => rw [ha, hdp] at h2; simp at h2

lemma getLast_dropTrailingWs : ∀ (l : List Char) (c : Char),
    (dropTrailingWs l).getLast? = some c → isPySpace c = false := by
  intro l
  induction l with
  | nil => intro c h; simp [dropTrailingWs] at h
  | cons a as ih =>
    intro c
    rcases hr : dropTrailingWs as with _ | ⟨d, ds⟩
    · cases hsp : isPySpace a with
      | true =>
        have he : dropTrailingWs (a :: as) = [] := by
          simp [dropTrailingWs, hr, hsp]
        rw [he]; intro h; simp at h
      | false =>
        have he : dropTrailingWs (a :: as) = [a] := by
          simp [dropTrailingWs, hr, hsp]
        rw [he]; intro h
        simp only [List.getLast?_singleton, Option.some.injEq] at h
        rw [← h]; exact hsp
    · have he : dropTrailingWs (a :: as) = a :: d :: ds := by
        simp [dropTrailingWs, hr]
      rw [he]; intro h
      rw [List.getLast?_cons_cons] at h
      exact ih c (by rw [hr]; exact h)

lemma isNormalized_pyNormalize (s : String) : isNormalized (pyNormalize s) = true := by
  unfold pyNormalize isNormalized pyStripChars
  have hall : ((collapse false s.data).dropWhile isPySpace).all
      (fun c => !isPySpace c || c == ' ') = true :=
    all_of_sublist (List.dropWhile_sublist _) (collapse_all_space false s.data)
  have h1 := all_dropTrailingWs _ _ hall
  have h2 := noTwoWs_dropTrailingWs _
    (noTwoWs_dropWhile isPySpace _ (noTwoWs_collapse s.data false))
  rw [Bool.and_eq_true, Bool.and_eq_true, Bool.and_eq_true]
  refine ⟨⟨⟨h1, h2⟩, ?_⟩, ?_⟩
  · rcases hh : (dropTrailingWs ((collapse false s.data).dropWhile isPySpace)).head? with _ | c
    · rfl
    · have := head_dropWhile_pySpace (collapse false s.data) c (dropTrailingWs_head? _ c hh)
      simp [this]
  · rcases hh : (dropTrailingWs ((collapse false s.data).dropWhile isPySpace)).getLast? with _ | c
    · rfl
    · have := getLast_dropTrailingWs _ c hh
      simp [this]

def convertCx : Bytes → Option (List Img) := fun _ => some [0, 1]

def ocrCx : Img → Option String := fun i => if i = 0 then some "alpha" else some "beta"

/-- Claim C9, counterexample: with a two-page scanned PDF whose pages
OCR to "alpha" and "beta", `parse_pdf_with_ocr` returns
"alpha\nbeta" — the newline the `"\n".join` inserts between the
normalized page texts is itself a whitespace run that is not collapsed
to a space, so the output is not fully whitespace-normalized. -/
theorem ocr_join_not_normalized :
    parse_pdf_with_ocr convertCx ocrCx [] = "alpha\nbeta" ∧
    isNormalized (parse_pdf_with_ocr convertCx ocrCx []) = false := by
  constructor <;> decide

/-- Claim C9, amended: the HTML, PDF-text-layer and image extractors
return fully whitespace-normalized text for every input; the PDF OCR
fallback instead returns the `"\n"`-join of its per-page results, each
of which is non-empty and fully normalized (so single newline
separators may remain between pages). -/
theorem extractor_outputs_normalized
    (plumberPages : Bytes → Option (List (Option String)))
    (convert : Bytes → Option (List Img)) (ocrPage : Img → Option String)
    (imgOcr : Bytes → Option String) (soupText : String → String)
    (b : Bytes) (html_text : String) :
    isNormalized (parse_html soupText html_text) = true ∧
    isNormalized (parse_pdf_with_pdfplumber plumberPages b) = true ∧
    isNormalized (parse_image_with_ocr imgOcr b) = true ∧
    ∃ parts : List String,
      parse_pdf_with_ocr convert ocrPage b = joinNL parts ∧
      ∀ p ∈ parts, isNormalized p = true ∧ p ≠ "" := by
  refine ⟨isNormalized_pyNormalize _, ?_, ?_, ?_⟩
  · unfold parse_pdf_with_pdfplumber
    rcases hpb : plumberPages b with _ | pages
    · decide
    · exact isNormalized_pyNormalize _
  · unfold parse_image_with_ocr
    rcases hio : imgOcr b with _ | t
    · decide
    · exact isNormalized_pyNormalize _
  · unfold parse_pdf_with_ocr
    rcases hcv : convert b with _ | images
    · exact ⟨[], rfl, by simp⟩
    · refine ⟨_, rfl, ?_⟩
      intro p hp
      rw [List.mem_filterMap] at hp
      obtain ⟨i, _, hi⟩ := hp
      rcases hoi : ocrPage i with _ | t
      · rw [hoi] at hi; simp at hi
      · rw [hoi] at hi
        have hi2 : (if pyNormalize t = "" then none else some (pyNormalize t)) = some p := hi
        by_cases hz : pyNormalize t = ""
        · rw [if_pos hz] at hi2; simp at hi2
        · rw [if_neg hz, Option.some.injEq] at hi2
          rw [← hi2]
          exact ⟨isNormalized_pyNormalize _, hz⟩

/-! ## Format dispatch (claim C2) -/

/-- Claim C2, counterexample: the image-suffix check is
`re.search(r"\.(png|jpe?g|gif|bmp|tif)$", url.lower())`, and without
`re.MULTILINE` the `$` also matches just before one final newline — so
the url "http://x/a.png\n", which does not end in any of the claimed
suffixes, still classifies as IMAGE, while the classifier the claim
describes returns UNKNOWN for it. -/
theorem classify_trailing_newline_cx :
    classify "" "http://x/a.png\n" = Format.IMAGE ∧
    classifySpec "" "http://x/a.png\n" = Format.UNKNOWN := by
  constructor <;> decide

/-- Claim C2, amended: the dispatch follows the claimed decision order
as a pure function of (contentType, url), with both the content-type
and the suffix matching case-insensitive (lowercasing first, so
"FILE.PDF" classifies as PDF), except that the image-suffix test also
accepts a single trailing newline after the suffix (Python regex `$`
end-anchor semantics). -/
theorem classify_decision_order (contentType url : String) :
    (classify contentType url = Format.PDF ↔
      (pyContains (pyLower contentType) "pdf" = true ∨
       pyEndsWith (pyLower url) ".pdf" = true)) ∧
    (classify contentType url = Format.IMAGE ↔
      (¬(pyContains (pyLower contentType) "pdf" = true ∨
         pyEndsWith (pyLower url) ".pdf" = true) ∧
       (pyContains (pyLower contentType) "image" = true ∨
        imageRegexMatch (pyLower url) = true))) ∧
    (classify contentType url = Format.HTML ↔
      (¬(pyContains (pyLower contentType) "pdf" = true ∨
         pyEndsWith (pyLower url) ".pdf" = true) ∧
       ¬(pyContains (pyLower contentType) "image" = true ∨
         imageRegexMatch (pyLower url) = true) ∧
       pyContains (pyLower contentType) "html" = true)) ∧
    (classify contentType url = Format.UNKNOWN ↔
      (¬(pyContains (pyLower contentType) "pdf" = true ∨
         pyEndsWith (pyLower url) ".pdf" = true) ∧
       ¬(pyContains (pyLower contentType) "image" = true ∨
         imageRegexMatch (pyLower url) = true) ∧
       ¬pyContains (pyLower contentType) "html" = true)) ∧
    classify "" "FILE.PDF" = Format.PDF ∧
    classifySpec "" "FILE.PDF" = Format.PDF := by
  refine ⟨?_, ?_, ?_, ?_, by decide, by decide⟩ <;>
  · unfold classify
    by_cases h1 : (pyContains (pyLower contentType) "pdf" ||
        pyEndsWith (pyLower url) ".pdf") = true
    · rw [Bool.or_eq_true] at h1
      simp [h1, Bool.or_eq_true]
      try tauto
    · rw [Bool.or_eq_true] at h1
      push_neg at h1
      by_cases h2 : (pyContains (pyLower contentType) "image" ||
          imageRegexMatch (pyLower url)) = true
      · rw [Bool.or_eq_true] at h2
        simp [h1.1, h1.2, h2, Bool.or_eq_true]
        try tauto
      · rw [Bool.or_eq_true] at h2
        push_neg at h2
        by_cases h3 : pyContains (pyLower contentType) "html" = true
        · simp [h1.1, h1.2, h2.1, h2.2, h3, Bool.or_eq_true]
          try tauto
        · simp [h1.1, h1.2, h2.1, h2.2, h3, Bool.or_eq_true]
          try tauto

/-! ## RelevanceScorer properties (claims C4, C5, C10) -/

/-- A well-behaved classification oracle, as the spec assumes: on a
pair of labels it returns a probability distribution over the supplied
labels (a permutation of them with aligned scores in [0,1] summing
to 1). -/
def ClassifierWF (classifier : String → List String → ClassifierOutput) : Prop :=
  ∀ t l0 l1,
    ((classifier t [l0, l1]).labels).Perm [l0, l1] ∧
    (classifier t [l0, l1]).scores.length = 2 ∧
    (∀ q ∈ (classifier t [l0, l1]).scores, 0 ≤ q ∧ q ≤ 1) ∧
    ((classifier t [l0, l1]).scores).sum = 1

/-- Claim C4: provided the oracle returns a probability distribution
over the supplied labels, every score `get_relate_domain_score`
returns lies in [0,1]; and on empty or whitespace-only text the result
is exactly 0.0 with the oracle not invoked. -/
theorem score_in_unit_interval (classifier : String → List String → ClassifierOutput)
    (hWF : ClassifierWF classifier) (text binary_labels : String) :
    (∀ q, (get_relate_domain_score classifier text binary_labels).1 = Except.ok q →
      0 ≤ q ∧ q ≤ 1) ∧
    (pyStrip text = "" →
      get_relate_domain_score classifier text binary_labels = (Except.ok 0, false)) := by
  constructor
  · intro q hq
    unfold get_relate_domain_score at hq
    by_cases ht : pyStrip text = ""
    · rw [if_pos ht] at hq
      have : (0 : ℚ) = q := by simpa using hq
      rw [← this]
      norm_num
    · rw [if_neg ht] at hq
      rcases hsp : pySplitSpace binary_labels with _ | ⟨t0, ls⟩
      · rw [hsp] at hq; simp at hq
      · rcases ls with _ | ⟨t1, rest⟩
        · rw [hsp] at hq; simp at hq
        · rw [hsp] at hq
          have hq2 : (scoreLookup (classifier text [t0, t1]) t0).1 = Except.ok q := hq
          obtain ⟨hperm, hlen, hbounds, -⟩ := hWF text t0 t1
          unfold scoreLookup at hq2
          have hmem : t0 ∈ (classifier text [t0, t1]).labels :=
            hperm.mem_iff.2 (by simp)
          rw [if_pos (List.elem_iff.2 hmem)] at hq2
          have hlab : (classifier text [t0, t1]).labels.length = 2 := by
            rw [hperm.length_eq]; rfl
          have hlt : (classifier text [t0, t1]).labels.indexOf t0 <
              (classifier text [t0, t1]).scores.length := by
            rw [hlen, ← hlab]
            exact List.indexOf_lt_length.2 hmem
          rw [List.get?_eq_get hlt] at hq2
          have : (classifier text [t0, t1]).scores.get ⟨_, hlt⟩ = q := by
            simpa using hq2
          rw [← this]
          exact hbounds _ (List.get_mem _ _ _)
  · intro ht
    unfold get_relate_domain_score
    rw [if_pos ht]

/-- A concrete well-behaved oracle: scores any label pair 1/2 each. -/
def cW : String → List String → ClassifierOutput := fun _ ls => ⟨ls, [1/2, 1/2]⟩

lemma cW_wf : ClassifierWF cW := by
  intro t l0 l1
  refine ⟨List.Perm.refl _, rfl, ?_, by simp [cW]; norm_num⟩
  intro q hq
  simp only [cW, List.mem_cons, List.not_mem_nil, or_false] at hq
  rcases hq with h | h <;> rw [h] <;> norm_num

/-- Witness for C4 at the concrete oracle `cW`, text "hi", labels
"A B": the run returns probability 1/2, which lies in [0,1]. -/
theorem score_in_unit_interval_witness :
    get_relate_domain_score cW "hi" "A B" = (Except.ok (1/2), true) ∧
    0 ≤ (1/2 : ℚ) ∧ (1/2 : ℚ) ≤ 1 :=
  ⟨rfl, (score_in_unit_interval cW cW_wf "hi" "A B").1 (1/2) rfl⟩

/-- Claim C5, counterexample: "a a" supplies only one distinct label
string, yet scoring non-empty text "hi" proceeds to the oracle and
returns 1/2 rather than raising; and with empty text and a single
label "b" the empty-text short-circuit returns 0.0 before the labels
are ever validated. -/
theorem score_no_config_error_cx :
    (pySplitSpace "a a").dedup.length = 1 ∧
    get_relate_domain_score cW "hi" "a a" = (Except.ok (1/2), true) ∧
    get_relate_domain_score cW "" "b" = (Except.ok 0, false) :=
  ⟨by decide, rfl, rfl⟩

/-- Non-whitespace text with fewer than two label tokens always takes
the `raise ValueError` branch. -/
lemma scoreConfigErrorAux (classifier : String → List String → ClassifierOutput)
    (text binary_labels : String)
    (ht : pyStrip text ≠ "") (hl : (pySplitSpace binary_labels).length < 2) :
    get_relate_domain_score classifier text binary_labels =
      (Except.error "target_labels must contain at least two elements.", false) := by
  unfold get_relate_domain_score
  rw [if_neg ht]
  rcases hsp : pySplitSpace binary_labels with _ | ⟨t0, ls⟩
  · rfl
  · rcases ls with _ | ⟨t1, rest⟩
    · rfl
    · rw [hsp] at hl
      simp at hl
      omega

/-- Claim C5, amended: for text that is non-empty after
whitespace-stripping, a label string whose space-split yields fewer
than two tokens (distinctness is not checked) raises the
`ValueError`; empty/whitespace text returns 0.0 without label
validation. -/
theorem score_config_error (classifier : String → List String → ClassifierOutput)
    (text binary_labels : String)
    (ht : pyStrip text ≠ "") (hl : (pySplitSpace binary_labels).length < 2) :
    get_relate_domain_score classifier text binary_labels =
      (Except.error "target_labels must contain at least two elements.", false) :=
  scoreConfigErrorAux classifier text binary_labels ht hl

/-- Witness for the amended C5 at text "hi" and the one-token label
string "a". -/
theorem score_config_error_witness :
    get_relate_domain_score cW "hi" "a" =
      (Except.error "target_labels must contain at least two elements.", false) :=
  score_config_error cW "hi" "a" (by decide) (by decide)

lemma splitOnSpace_ne_nil (l : List Char) : splitOnSpace l ≠ [] := by
  cases l with
  | nil => simp [splitOnSpace]
  | cons c cs =>
    by_cases hc : c == ' '
    · simp [splitOnSpace, hc]
    · simp only [splitOnSpace, hc, Bool.false_eq_true, if_false]
      rcases h : splitOnSpace cs with _ | ⟨t, ts⟩ <;> simp

lemma splitOnSpace_no_space : ∀ (l : List Char), ∀ t ∈ splitOnSpace l, ' ' ∉ t := by
  intro l
  induction l with
  | nil =>
    intro t ht
    simp [splitOnSpace] at ht
    simp [ht]
  | cons c cs ih =>
    intro t ht
    by_cases hc : c == ' '
    · simp only [splitOnSpace, hc, if_true, List.mem_cons] at ht
      rcases ht with h | h
      · simp [h]
      · exact ih t h
    · simp only [splitOnSpace, hc, Bool.false_eq_true, if_false] at ht
      rcases hs : splitOnSpace cs with _ | ⟨t1, ts⟩
      · exact absurd hs (splitOnSpace_ne_nil cs)
      · rw [hs, List.mem_cons] at ht
        rcases ht with h | h
        · rw [h, List.mem_cons]
          push_neg
          constructor
          · intro he; rw [he] at hc; simp at hc
          · exact ih t1 (by rw [hs]; exact List.mem_cons_self _ _)
        · exact ih t (by rw [hs]; exact List.mem_cons_of_mem _ h)

/-- Claim C10: the label pair comes from splitting the label string on
the space character, so no token can contain a space; only the first
two tokens reach the oracle (two oracles agreeing on those two tokens
give identical results, whatever the remaining tokens); and an `ok`
score is exactly the oracle's probability at the first token's index
in the returned label list. -/
theorem labels_from_space_split (c1 c2 : String → List String → ClassifierOutput)
    (text binary_labels t0 t1 : String) (rest : List String)
    (ht : pyStrip text ≠ "")
    (hsp : pySplitSpace binary_labels = t0 :: t1 :: rest) :
    (∀ t ∈ pySplitSpace binary_labels, ' ' ∉ t.data) ∧
    (c1 text [t0, t1] = c2 text [t0, t1] →
      get_relate_domain_score c1 text binary_labels =
        get_relate_domain_score c2 text binary_labels) ∧
    (∀ q, (get_relate_domain_score c1 text binary_labels).1 = Except.ok q →
      (c1 text [t0, t1]).scores.get? ((c1 text [t0, t1]).labels.indexOf t0) =
        some q) := by
  refine ⟨?_, ?_, ?_⟩
  · intro t htm
    unfold pySplitSpace at htm
    rw [List.mem_map] at htm
    obtain ⟨tc, htc, rfl⟩ := htm
    exact splitOnSpace_no_space _ tc htc
  · intro heq
    unfold get_relate_domain_score
    rw [if_neg ht, if_neg ht, hsp]
    show scoreLookup (c1 text [t0, t1]) t0 = scoreLookup (c2 text [t0, t1]) t0
    rw [heq]
  · intro q hq
    unfold get_relate_domain_score at hq
    rw [if_neg ht, hsp] at hq
    have hq2 : (scoreLookup (c1 text [t0, t1]) t0).1 = Except.ok q := hq
    unfold scoreLookup at hq2
    by_cases hc : (c1 text [t0, t1]).labels.contains t0
    · rw [if_pos hc] at hq2
      rcases hg : (c1 text [t0, t1]).scores.get?
          ((c1 text [t0, t1]).labels.indexOf t0) with _ | s
      · rw [hg] at hq2; simp at hq2
      · rw [hg] at hq2
        have hsq : s = q := by simpa using hq2
        rw [hsq]
    · rw [if_neg hc] at hq2; simp at hq2

/-- A concrete oracle agreeing with `cW` on two-element label lists
only. -/
def cV : String → List String → ClassifierOutput :=
  fun _ ls => if ls.length = 2 then ⟨ls, [1/2, 1/2]⟩ else ⟨[], []⟩

/-- Witness for C10 at text "hi" and labels "A B C": `cW` and `cV`
differ away from two-element label lists yet give the same score,
showing the third token "C" is ignored. -/
theorem labels_from_space_split_witness :
    get_relate_domain_score cW "hi" "A B C" =
      get_relate_domain_score cV "hi" "A B C" :=
  (labels_from_space_split cW cV "hi" "A B C" "A" "B" ["C"]
    (by decide) (by decide)).2.1 rfl

/-! ## CrawlPermissionGate and ContentFetcher properties (claims C6, C7, C3) -/

/-- Claim C6: `can_crawl` (a total function — it never raises) returns
`false` exactly when the parser is available, a registrable domain was
extracted, and a status-200 robots.txt fetch produced a policy that
forbids the wildcard user-agent from the url; every other path — no
parser, no domain, fetch exception/timeout, non-200 status — resolves
to `true` (fail-open). -/
theorem can_crawl_fail_open (parserAvail : Bool) (regDomain : String → String)
    (fetchRobots : String → Option (Nat × String)) (allows : String → String → Bool)
    (url : String) :
    can_crawl parserAvail regDomain fetchRobots allows url = false ↔
      (parserAvail = true ∧ regDomain url ≠ "" ∧
       ∃ body,
         fetchRobots ("http://" ++ regDomain url ++ "/robots.txt") = some (200, body) ∧
         allows body url = false) := by
  unfold can_crawl
  cases parserAvail with
  | false => simp
  | true =>
    simp only [Bool.not_true, Bool.false_eq_true, if_false, true_and]
    by_cases hd : regDomain url = ""
    · simp [hd]
    · rw [if_neg hd]
      rcases hf : fetchRobots ("http://" ++ regDomain url ++ "/robots.txt")
        with _ | ⟨status, body⟩
      · simp [hd]
      · by_cases hs : status = 200
        · subst hs
          simp [hd]
        · simp [hd, hs, Prod.ext_iff]

/-- Claim C7: `fetch_full_text_requests` (a total function — every
collaborator exception is caught at this boundary) returns the empty
string on every failure path: a requests exception (`resp url =
none`), a non-200 status, an unrecognized content type, a PDF whose
text-layer and OCR extractions both fail, and an image whose
decode/OCR fails. -/
theorem fetcher_never_raises (resp : String → Option HttpResp)
    (plumberPages : Bytes → Option (List (Option String)))
    (convert : Bytes → Option (List Img)) (ocrPage : Img → Option String)
    (imgOcr : Bytes → Option String) (soupText : String → String) (url : String) :
    (resp url = none →
      fetch_full_text_requests resp plumberPages convert ocrPage imgOcr soupText url =
        ("", false)) ∧
    (∀ r, resp url = some r → r.status ≠ 200 →
      fetch_full_text_requests resp plumberPages convert ocrPage imgOcr soupText url =
        ("", false)) ∧
    (∀ r, resp url = some r → r.status = 200 →
      classify r.contentType url = Format.UNKNOWN →
      fetch_full_text_requests resp plumberPages convert ocrPage imgOcr soupText url =
        ("", false)) ∧
    (∀ r, resp url = some r → r.status = 200 →
      classify r.contentType url = Format.PDF →
      plumberPages r.body = none → convert r.body = none →
      (fetch_full_text_requests resp plumberPages convert ocrPage imgOcr soupText url).1 =
        "") ∧
    (∀ r, resp url = some r → r.status = 200 →
      classify r.contentType url = Format.IMAGE →
      imgOcr r.body = none →
      fetch_full_text_requests resp plumberPages convert ocrPage imgOcr soupText url =
        ("", false)) := by
  refine ⟨?_, ?_, ?_, ?_, ?_⟩
  · intro h
    unfold fetch_full_text_requests
    rw [h]
  · intro r hr hs
    unfold fetch_full_text_requests
    rw [hr]
    simp [hs]
  · intro r hr hs hcl
    unfold fetch_full_text_requests
    rw [hr]
    simp [hs, hcl]
  · intro r hr hs hcl hpl hcv
    unfold fetch_full_text_requests
    rw [hr]
    simp only [hs, ne_eq, not_true_eq_false, if_false, ite_not]
    rw [hcl]
    have hpp : parse_pdf_with_pdfplumber plumberPages r.body = "" := by
      unfold parse_pdf_with_pdfplumber
      rw [hpl]
    have hoc : parse_pdf_with_ocr convert ocrPage r.body = "" := by
      unfold parse_pdf_with_ocr
      rw [hcv]
    simp only [hpp, hoc]
    split <;> rfl
  · intro r hr hs hcl hio
    unfold fetch_full_text_requests
    rw [hr]
    simp only [hs, ne_eq, not_true_eq_false, if_false, ite_not]
    rw [hcl]
    unfold parse_image_with_ocr
    rw [hio]

/-- Claim C3: within a successful 200 fetch, the OCR fallback flag is
set exactly when the response classified as PDF and the text-layer
extraction came back empty-or-whitespace; in that case the result is
the OCR extraction of the same bytes, and when the text layer yielded
non-whitespace text the OCR extractor is never invoked and the
text-layer result is returned. -/
theorem pdf_ocr_fallback (resp : String → Option HttpResp)
    (plumberPages : Bytes → Option (List (Option String)))
    (convert : Bytes → Option (List Img)) (ocrPage : Img → Option String)
    (imgOcr : Bytes → Option String) (soupText : String → String) (url : String) :
    ((fetch_full_text_requests resp plumberPages convert ocrPage imgOcr soupText url).2 =
        true ↔
      ∃ r, resp url = some r ∧ r.status = 200 ∧
        classify r.contentType url = Format.PDF ∧
        pyStrip (parse_pdf_with_pdfplumber plumberPages r.body) = "") ∧
    (∀ r, resp url = some r → r.status = 200 →
      classify r.contentType url = Format.PDF →
      pyStrip (parse_pdf_with_pdfplumber plumberPages r.body) = "" →
      fetch_full_text_requests resp plumberPages convert ocrPage imgOcr soupText url =
        (parse_pdf_with_ocr convert ocrPage r.body, true)) ∧
    (∀ r, resp url = some r → r.status = 200 →
      classify r.contentType url = Format.PDF →
      pyStrip (parse_pdf_with_pdfplumber plumberPages r.body) ≠ "" →
      fetch_full_text_requests resp plumberPages convert ocrPage imgOcr soupText url =
        (parse_pdf_with_pdfplumber plumberPages r.body, false)) := by
  refine ⟨?_, ?_, ?_⟩
  · unfold fetch_full_text_requests
    rcases hr : resp url with _ | r
    · simp
    · by_cases hs : r.status = 200
      · simp only [hs, ne_eq, not_true_eq_false, if_false, ite_not]
        rcases hcl : classify r.contentType url with _ | _ | _ | _
        · by_cases hpp : pyStrip (parse_pdf_with_pdfplumber plumberPages r.body) = ""
          · simp [hpp, hcl, hs]
          · simp [hpp, hcl, hs]
        · simp [hcl]
        · simp [hcl]
        · simp [hcl]
      · simp only [hs, ne_eq, not_false_eq_true, if_true]
        simp [hs]
  · intro r hr hs hcl hpp
    unfold fetch_full_text_requests
    rw [hr]
    simp only [hs, ne_eq, not_true_eq_false, if_false, ite_not]
    rw [hcl]
    simp [hpp]
  · intro r hr hs hcl hpp
    unfold fetch_full_text_requests
    rw [hr]
    simp only [hs, ne_eq, not_true_eq_false, if_false, ite_not]
    rw [hcl]
    simp [hpp]

/-! ## AcquisitionPipeline properties (claims C1, C8) -/

/-- An error-free loop pass produces exactly the stable filter of the
hit list. -/
lemma runHits_ok (gate : String → Bool) (fetchReq : String → String)
    (classifier : String → List String → ClassifierOutput) (binary_labels : String) :
    ∀ (hits : List RawHit) (l : List ResultRecord) (evs : List Ev),
      runHits gate fetchReq classifier binary_labels hits = (Except.ok l, evs) →
      l = (hits.filter (survives gate fetchReq)).map
            (mkRecord gate fetchReq classifier binary_labels) := by
  intro hits
  induction hits with
  | nil =>
    intro l evs h
    simp only [runHits, Prod.mk.injEq] at h
    rw [← Except.ok.inj h.1]
    rfl
  | cons hd rest ih =>
    intro l evs h
    by_cases hf : fetch_full_text gate fetchReq hd.href = ""
    · rw [runHits, if_pos hf] at h
      rcases hrr : runHits gate fetchReq classifier binary_labels rest with ⟨r1, r2⟩
      rw [hrr, Prod.mk.injEq] at h
      have h1 : r1 = Except.ok l := h.1
      have hsv : survives gate fetchReq hd = false := by
        simp [survives, hf]
      rw [List.filter_cons_of_neg (by simp [hsv])]
      exact ih l r2 (by rw [hrr, h1])
    · rw [runHits, if_neg hf] at h
      rcases hgr : get_relate_domain_score classifier
          (fetch_full_text gate fetchReq hd.href) binary_labels with ⟨res, inv⟩
      rw [hgr] at h
      rcases res with e | q
      · rw [Prod.mk.injEq] at h
        exact absurd h.1 (by simp)
      · rcases hrr : runHits gate fetchReq classifier binary_labels rest with ⟨r1, r2⟩
        rw [hrr] at h
        rcases r1 with e | l'
        · rw [Prod.mk.injEq] at h
          exact absurd h.1 (by simp)
        · rw [Prod.mk.injEq] at h
          have hl := Except.ok.inj h.1
          have hsv : survives gate fetchReq hd = true := by
            simp [survives, hf]
          rw [List.filter_cons_of_pos (by simp [hsv]), List.map_cons]
          rw [← hl, ← ih l' r2 (by rw [hrr])]
          have hrec : mkRecord gate fetchReq classifier binary_labels hd =
              { title := hd.title, link := hd.href, snippet := hd.body,
                full_text := fetch_full_text gate fetchReq hd.href,
                academic_score := q } := by
            unfold mkRecord scoreOf
            rw [hgr]
          rw [hrec]

/-- Claim C1: an error-free `search_duckduckgo` run is a stable filter —
the output is exactly the in-order records of the hits whose gated
fetch returned non-empty text (a denied gate yields `""` inside
`fetch_full_text`, so such hits are dropped, as are empty fetches); its
length is at most the input length, its links form a sublist of the
input hrefs (order preserved), and every emitted record has non-empty
`full_text`. -/
theorem search_stable_filter (gate : String → Bool) (fetchReq : String → String)
    (classifier : String → List String → ClassifierOutput)
    (hits : List RawHit) (binary_labels : String)
    (l : List ResultRecord) (evs : List Ev)
    (h : search_duckduckgo gate fetchReq classifier hits binary_labels =
      (Except.ok l, evs)) :
    l = (hits.filter (survives gate fetchReq)).map
          (mkRecord gate fetchReq classifier binary_labels) ∧
    l.length ≤ hits.length ∧
    (l.map ResultRecord.link).Sublist (hits.map RawHit.href) ∧
    ∀ r ∈ l, r.full_text ≠ "" := by
  rcases hrr : runHits gate fetchReq classifier binary_labels hits with ⟨r1, r2⟩
  unfold search_duckduckgo at h
  rw [hrr, Prod.mk.injEq] at h
  have h1 : r1 = Except.ok l := h.1
  have hmain := runHits_ok gate fetchReq classifier binary_labels hits l r2
    (by rw [hrr, h1])
  refine ⟨hmain, ?_, ?_, ?_⟩
  · rw [hmain, List.length_map]
    exact List.Sublist.length_le (List.filter_sublist _)
  · rw [hmain, List.map_map]
    have : (ResultRecord.link ∘ mkRecord gate fetchReq classifier binary_labels) =
        RawHit.href := rfl
    rw [this]
    exact List.Sublist.map _ (List.filter_sublist _)
  · intro r hr
    rw [hmain] at hr
    rw [List.mem_map] at hr
    obtain ⟨h', hh', rfl⟩ := hr
    rw [List.mem_filter] at hh'
    have := hh'.2
    unfold survives at this
    unfold mkRecord
    simpa using this

/-- A concrete gate denying only "u2". -/
def gateW : String → Bool := fun u => u != "u2"

/-- A concrete fetcher: text for "u1", empty for "u3". -/
def fetchW : String → String :=
  fun u => if u = "u1" then "Hello World" else if u = "u3" then "" else "never fetched"

/-- Three concrete search hits. -/
def hitsW : List RawHit := [⟨"t1", "u1", "s1"⟩, ⟨"t2", "u2", "s2"⟩, ⟨"t3", "u3", "s3"⟩]

/-- The record the witness run emits for the first hit. -/
def recW : ResultRecord := ⟨"t1", "u1", "s1", "Hello World", 1/2⟩

/-- Witness for C1: three hits — one fetchable, one gate-blocked, one
with empty content — produce exactly the one record for the first hit,
in order. -/
theorem search_stable_filter_witness :
    [recW] = (hitsW.filter (survives gateW fetchW)).map (mkRecord gateW fetchW cW "A B") ∧
    ([recW] : List ResultRecord).length ≤ hitsW.length ∧
    (([recW] : List ResultRecord).map ResultRecord.link).Sublist (hitsW.map RawHit.href) := by
  have h := search_stable_filter gateW fetchW cW hitsW "A B" [recW]
    [Ev.search, Ev.fetch "u1", Ev.fetch "u2", Ev.fetch "u3"] rfl
  exact ⟨h.1, h.2.1, h.2.2.1⟩

lemma pyStrip_ne_empty {s : String} (h : pyStrip s ≠ "") : s ≠ "" := by
  intro he
  rw [he] at h
  exact h rfl

/-- When every hit fetches to whitespace-only (or empty) text, the loop
never reaches the label validation: it completes with an `ok` result
and one fetch event per hit. -/
lemma runHits_all_ws (gate : String → Bool) (fetchReq : String → String)
    (classifier : String → List String → ClassifierOutput) (binary_labels : String) :
    ∀ (hits : List RawHit),
      (∀ h' ∈ hits, pyStrip (fetch_full_text gate fetchReq h'.href) = "") →
      ∃ l, runHits gate fetchReq classifier binary_labels hits =
        (Except.ok l, hits.map (fun h' => Ev.fetch h'.href)) := by
  intro hits
  induction hits with
  | nil => intro _; exact ⟨[], rfl⟩
  | cons hd rest ih =>
    intro hws
    obtain ⟨l, hl⟩ := ih (fun h' hh' => hws h' (List.mem_cons_of_mem _ hh'))
    by_cases hf : fetch_full_text gate fetchReq hd.href = ""
    · refine ⟨l, ?_⟩
      rw [runHits, if_pos hf, hl]
      rfl
    · have hge : get_relate_domain_score classifier
          (fetch_full_text gate fetchReq hd.href) binary_labels =
          (Except.ok 0, false) := by
        unfold get_relate_domain_score
        rw [if_pos (hws hd (List.mem_cons_self _ _))]
      refine ⟨{ title := hd.title, link := hd.href, snippet := hd.body,
                full_text := fetch_full_text gate fetchReq hd.href,
                academic_score := 0 } :: l, ?_⟩
      rw [runHits, if_neg hf, hge, hl]
      rfl

/-- With a bad label string, the loop raises at the first hit whose
fetched text has non-whitespace content, after fetching every hit up to
and including it. -/
lemma runHits_config_error (gate : String → Bool) (fetchReq : String → String)
    (classifier : String → List String → ClassifierOutput) (binary_labels : String)
    (hbad : (pySplitSpace binary_labels).length < 2) :
    ∀ (pre : List RawHit) (hd : RawHit) (rest : List RawHit),
      (∀ h' ∈ pre, pyStrip (fetch_full_text gate fetchReq h'.href) = "") →
      pyStrip (fetch_full_text gate fetchReq hd.href) ≠ "" →
      runHits gate fetchReq classifier binary_labels (pre ++ hd :: rest) =
        (Except.error "target_labels must contain at least two elements.",
         (pre ++ [hd]).map (fun h' => Ev.fetch h'.href)) := by
  intro pre
  induction pre with
  | nil =>
    intro hd rest _ hws
    have hge := scoreConfigErrorAux classifier
      (fetch_full_text gate fetchReq hd.href) binary_labels hws hbad
    rw [List.nil_append, runHits, if_neg (pyStrip_ne_empty hws), hge]
    rfl
  | cons p pre' ih =>
    intro hd rest hpre hws
    have hpw : pyStrip (fetch_full_text gate fetchReq p.href) = "" :=
      hpre p (List.mem_cons_self _ _)
    have hrec := ih hd rest (fun h' hh' => hpre h' (List.mem_cons_of_mem _ hh')) hws
    by_cases hf : fetch_full_text gate fetchReq p.href = ""
    · rw [List.cons_append, runHits, if_pos hf, hrec]
      rfl
    · have hge : get_relate_domain_score classifier
          (fetch_full_text gate fetchReq p.href) binary_labels =
          (Except.ok 0, false) := by
        unfold get_relate_domain_score
        rw [if_pos hpw]
      rw [List.cons_append, runHits, if_neg hf, hge, hrec]
      rfl

/-- Claim C8, amended: with fewer than two label tokens the
configuration error is not raised before network activity — the search
call and the per-hit gated fetches up to and including the first hit
with non-whitespace fetched text all happen first, and the error
surfaces only then; if no hit yields non-whitespace text the error is
never raised at all and the run completes with an `ok` result. -/
theorem config_error_after_network (gate : String → Bool) (fetchReq : String → String)
    (classifier : String → List String → ClassifierOutput) (binary_labels : String)
    (hbad : (pySplitSpace binary_labels).length < 2) :
    (∀ (pre : List RawHit) (hd : RawHit) (rest : List RawHit),
      (∀ h' ∈ pre, pyStrip (fetch_full_text gate fetchReq h'.href) = "") →
      pyStrip (fetch_full_text gate fetchReq hd.href) ≠ "" →
      search_duckduckgo gate fetchReq classifier (pre ++ hd :: rest) binary_labels =
        (Except.error "target_labels must contain at least two elements.",
         Ev.search :: (pre ++ [hd]).map (fun h' => Ev.fetch h'.href))) ∧
    (∀ (hits : List RawHit),
      (∀ h' ∈ hits, pyStrip (fetch_full_text gate fetchReq h'.href) = "") →
      ∃ l, search_duckduckgo gate fetchReq classifier hits binary_labels =
        (Except.ok l, Ev.search :: hits.map (fun h' => Ev.fetch h'.href))) := by
  constructor
  · intro pre hd rest hpre hws
    unfold search_duckduckgo
    rw [runHits_config_error gate fetchReq classifier binary_labels hbad pre hd rest hpre hws]
  · intro hits hws
    obtain ⟨l, hl⟩ := runHits_all_ws gate fetchReq classifier binary_labels hits hws
    exact ⟨l, by unfold search_duckduckgo; rw [hl]⟩

/-- Claim C8, counterexample: with the one-token label string "solo"
the concrete run raises the configuration `ValueError`, but only after
the DDGS search call and the fetch of the first hit — the event trace
`[search, fetch "u1"]` precedes the error, where the claim requires no
search and no fetch before it. -/
theorem config_error_after_network_cx :
    search_duckduckgo gateW fetchW cW hitsW "solo" =
      (Except.error "target_labels must contain at least two elements.",
       [Ev.search, Ev.fetch "u1"]) := rfl

/-- Witness for the amended C8: the same concrete run, obtained from
the timing theorem with `pre = []`. -/
theorem config_error_after_network_witness :
    search_duckduckgo gateW fetchW cW hitsW "solo" =
      (Except.error "target_labels must contain at least two elements.",
       Ev.search :: (([] : List RawHit) ++ [(⟨"t1", "u1", "s1"⟩ : RawHit)]).map
         (fun h' => Ev.fetch h'.href)) := by
  have h := (config_error_after_network gateW fetchW cW "solo" (by decide)).1
    [] ⟨"t1", "u1", "s1"⟩ [⟨"t2", "u2", "s2"⟩, ⟨"t3", "u3", "s3"⟩]
    (by intro h' hh'; simp at hh') (by decide)
  exact h

end WebSearch
